import Mathlib

/-!
Verification of the HTTP execution core of the `@pinta365/strava` client.

Shallow embedding, translated from the TypeScript source:
* `src/http/retry.ts`       — retry with exponential backoff (`withRetry`)
* `src/http/deduplication.ts` — request deduplication (`RequestDeduplicator`)
* `src/auth/oauth.ts`       — token lifecycle (`OAuthManager.getToken`)
* `src/http/request.ts`     — error classification (`createErrorFromResponse`,
                              the catch-clause of `makeRequest`)
* `src/errors.ts`           — error taxonomy

Numbers that the source treats as JS numbers are modelled as `Int`
(timestamps, status codes, attempt bounds) or `ℚ` (delays, backoff factors,
where non-integer configuration values are legal). Promises are modelled by
identifying each pending result with a `Nat` id supplied at creation time;
asynchronous effects (sleeps, network calls) are recorded in the returned
value rather than performed.
-/

namespace Strava

/-! ## Retry layer (`src/http/retry.ts`) -/

/-- `RetryConfig` from `src/types/common.ts`, with every field required, as in
`Required<RetryConfig>`. `maxAttempts` is `Int` because the source nowhere
forces it positive; delays and the backoff factor are `ℚ` because the source
allows fractional values. -/
structure RetryConfig where
  maxAttempts : Int
  initialDelay : ℚ
  maxDelay : ℚ
  backoffFactor : ℚ
  retryableStatusCodes : List Int

/-- `DEFAULT_RETRY_CONFIG` from `src/http/retry.ts`. -/
def DEFAULT_RETRY_CONFIG : RetryConfig :=
  { maxAttempts := 3
    initialDelay := 1000
    maxDelay := 10000
    backoffFactor := 2
    retryableStatusCodes := [429, 500, 502, 503, 504] }

/-- `calculateDelay(attempt, config, retryAfter)` from `src/http/retry.ts`:
a supplied retry-after hint (seconds) yields `min(retryAfter*1000, maxDelay)`;
otherwise `min(initialDelay * backoffFactor^(attempt-1), maxDelay)`. -/
def calculateDelay (attempt : Nat) (config : RetryConfig) (retryAfter : Option ℚ) : ℚ :=
  match retryAfter with
  | some ra => min (ra * 1000) config.maxDelay
  | none => min (config.initialDelay * config.backoffFactor ^ (attempt - 1)) config.maxDelay

/-- `isRetryable(statusCode, config)` from `src/http/retry.ts`: an absent
status code is retryable; otherwise membership in `retryableStatusCodes`. -/
def isRetryable (statusCode : Option Int) (config : RetryConfig) : Bool :=
  match statusCode with
  | none => true
  | some c => config.retryableStatusCodes.contains c

/-- Observable outcome of a `withRetry` run: the resolved value or the thrown
error (`Except.error none` models throwing the never-assigned `lastError`,
i.e. `undefined`), the number of invocations of the attempt function, and the
sequence of delays slept between attempts. -/
structure RetryOutcome (ε α : Type) where
  result : Except (Option ε) α
  invocations : Nat
  delays : List ℚ
deriving Repr

/-- The loop body of `withRetry` from `src/http/retry.ts`. `fn i` is the
outcome of the `i`-th invocation of the attempt function (`i` counted from 1,
as the source's `attempt` variable); `statusOf` reads the error's
`statusCode` property; `remaining + 1` is the number of loop iterations still
allowed, so `remaining = 0` is exactly the source's `attempt >= maxAttempts`
break. The break check precedes the retryability check, as in the source. -/
def withRetryGo {ε α : Type} (fn : Nat → Except ε α) (statusOf : ε → Option Int)
    (getRetryAfter : ε → Option ℚ) (config : RetryConfig) :
    Nat → Nat → RetryOutcome ε α
  | _, 0 => ⟨.error none, 0, []⟩
  | attempt, remaining + 1 =>
    match fn attempt with
    | .ok v => ⟨.ok v, 1, []⟩
    | .error e =>
      if remaining = 0 then ⟨.error (some e), 1, []⟩
      else if isRetryable (statusOf e) config then
        let d := calculateDelay attempt config (getRetryAfter e)
        let rest := withRetryGo fn statusOf getRetryAfter config (attempt + 1) remaining
        ⟨rest.result, rest.invocations + 1, d :: rest.delays⟩
      else ⟨.error (some e), 1, []⟩

/-- `withRetry(fn, config, getRetryAfter)` from `src/http/retry.ts`: the
`for (let attempt = 1; attempt <= maxAttempts; ...)` loop runs
`maxAttempts.toNat` iterations starting at attempt 1. -/
def withRetry {ε α : Type} (fn : Nat → Except ε α) (statusOf : ε → Option Int)
    (getRetryAfter : ε → Option ℚ) (config : RetryConfig) : RetryOutcome ε α :=
  withRetryGo fn statusOf getRetryAfter config 1 config.maxAttempts.toNat

/-! ## Request deduplication (`src/http/deduplication.ts`) -/

/-- The deduplicator's `Map<string, CacheEntry>`: key, promise id, timestamp.
`Map.get`/`Map.set` semantics are modelled on an association list with at
most one binding per key (lookup of the first match; `cacheSet` replaces an
existing binding in place). -/
abbrev Cache := List (String × Nat × Int)

/-- `this.cache.get(key)`. -/
def cacheGet : Cache → String → Option (Nat × Int)
  | [], _ => none
  | (k, v) :: rest, key => if k = key then some v else cacheGet rest key

/-- `this.cache.set(key, entry)`. -/
def cacheSet : Cache → String → Nat × Int → Cache
  | [], key, v => [(key, v)]
  | (k, w) :: rest, key, v =>
    if k = key then (key, v) :: rest else (k, w) :: cacheSet rest key v

/-- Insertion of one query pair into a list sorted by key; `sortByKey` below
models `Object.keys(query).sort()` followed by value lookup (object keys are
unique, so sorting the pairs by key is the same ordering). -/
def insertByKey (x : String × String) : List (String × String) → List (String × String)
  | [] => [x]
  | y :: ys => if x.1 ≤ y.1 then x :: y :: ys else y :: insertByKey x ys

/-- Lexicographic key sort of the query pairs. -/
def sortByKey (l : List (String × String)) : List (String × String) :=
  l.foldr insertByKey []

/-- `generateKey(method, path, query, body)` from `src/http/deduplication.ts`.
The query is modelled with its values already coerced by `String(...)`; the
body is modelled by its serialized form (`JSON.stringify`, or the `String(...)`
fallback), `none` when the body is absent (falsy). -/
def generateKey (method path : String) (query : Option (List (String × String)))
    (body : Option String) : String :=
  let parts := [method, path]
  let parts := match query with
    | none => parts
    | some q =>
      parts ++ [String.intercalate "&" ((sortByKey q).map (fun p => p.1 ++ "=" ++ p.2))]
  let parts := match body with
    | none => parts
    | some b => parts ++ [b]
  String.intercalate "|" parts

/-- `RequestDeduplicator.getOrCreate` from `src/http/deduplication.ts`.
`fresh` is the id of the promise `factory()` would create; the returned
`Bool` records whether `factory` was invoked. A cached entry is served only
while `now - timestamp < windowMs`; otherwise a new entry replaces it. -/
def getOrCreate (cache : Cache) (windowMs : Int) (method path : String)
    (query : Option (List (String × String))) (body : Option String)
    (now : Int) (fresh : Nat) : Nat × Cache × Bool :=
  let key := generateKey method path query body
  match cacheGet cache key with
  | some (p, ts) =>
    if now - ts < windowMs then (p, cache, false)
    else (fresh, cacheSet cache key (fresh, now), true)
  | none => (fresh, cacheSet cache key (fresh, now), true)

/-- A sequence of `getOrCreate` calls with a fixed request shape: each call
supplies its wall-clock time and its fresh promise id. Returns the final
cache, the promise each caller received (in call order), and the number of
factory invocations. -/
def runCalls (windowMs : Int) (method path : String)
    (query : Option (List (String × String))) (body : Option String) :
    Cache → List (Int × Nat) → Cache × List Nat × Nat
  | cache, [] => (cache, [], 0)
  | cache, (t, f) :: rest =>
    let step := getOrCreate cache windowMs method path query body t f
    let next := runCalls windowMs method path query body step.2.1 rest
    (next.1, step.1 :: next.2.1, next.2.2 + (if step.2.2 then 1 else 0))

/-! ## OAuth token lifecycle (`src/auth/oauth.ts`) -/

/-- `TokenData` from `src/auth/token-store.ts`. -/
structure TokenData where
  accessToken : String
  refreshToken : String
  expiresAt : Int
  tokenType : String
  scope : Option String
  athleteId : Option Int
deriving DecidableEq, Repr

/-- The record built by `refreshAccessToken` in `src/auth/oauth.ts` from the
provider's token response: it carries no `scope` field at all. -/
structure RefreshedTokenData where
  accessToken : String
  refreshToken : String
  expiresAt : Int
  tokenType : String
  athleteId : Option Int
deriving DecidableEq, Repr

/-- `isTokenExpired(token, bufferSeconds)` from `src/auth/oauth.ts`. -/
def isTokenExpired (token : TokenData) (now : Int) (bufferSeconds : Int) : Bool :=
  token.expiresAt ≤ now + bufferSeconds

/-- JS `a || b` on the optional numeric `athleteId`: `a` wins unless it is
absent or falsy (`0`). -/
def jsOrAthleteId (a b : Option Int) : Option Int :=
  match a with
  | some x => if x = 0 then b else some x
  | none => b

/-- The `refreshedToken` record built inside `OAuthManager.getToken`:
`{ ...newToken, scope: token.scope, athleteId: token.athleteId || newToken.athleteId }`. -/
def refreshedRecord (token : TokenData) (nt : RefreshedTokenData) : TokenData :=
  { accessToken := nt.accessToken
    refreshToken := nt.refreshToken
    expiresAt := nt.expiresAt
    tokenType := nt.tokenType
    scope := token.scope
    athleteId := jsOrAthleteId token.athleteId nt.athleteId }

/-- Payload of a `StravaAuthError` thrown by `refreshAccessToken`. -/
structure StravaAuthErrorData where
  message : String
  statusCode : Option Int
deriving DecidableEq, Repr

/-- Observable outcome of one `OAuthManager.getToken()` call: the returned
value or propagated error, the TokenStore contents afterwards, and how many
refresh exchanges were performed. -/
structure GetTokenResult where
  result : Except StravaAuthErrorData (Option TokenData)
  store : Option TokenData
  refreshCalls : Nat
deriving Repr

namespace OAuthManager

/-- `OAuthManager.getToken` from `src/auth/oauth.ts`. `store` is what
`tokenStore.get()` yields, `refreshOutcome` is what the (single, if any)
`refreshAccessToken` network exchange would yield. On refresh success the
merged record is persisted and returned; on refresh failure the store is
cleared and the error rethrown; a present, unexpired token is returned with
no refresh and no store write. -/
def getToken (store : Option TokenData) (now : Int)
    (refreshOutcome : Except StravaAuthErrorData RefreshedTokenData) : GetTokenResult :=
  match store with
  | none => ⟨.ok none, none, 0⟩
  | some token =>
    if isTokenExpired token now 300 then
      match refreshOutcome with
      | .ok nt =>
        let refreshedToken := refreshedRecord token nt
        ⟨.ok (some refreshedToken), some refreshedToken, 1⟩
      | .error e => ⟨.error e, none, 1⟩
    else ⟨.ok (some token), some token, 0⟩

end OAuthManager

/-! ## Error classification (`src/http/request.ts`, `src/errors.ts`) -/

/-- The concrete error class chosen by `createErrorFromResponse`:
`StravaAuthError`, `StravaNotFoundError`, `StravaValidationError`,
`StravaRateLimitError`, `StravaServerError`, or the base `StravaError`. -/
inductive StravaErrorKind
  | auth
  | notFound
  | validation
  | rateLimit
  | server
  | generic
deriving DecidableEq, Repr

/-- A constructed error object: its class, message, `statusCode`, and (for
rate-limit errors) the parsed `Retry-After` value. The provider payload and
rate-limit usage snapshot are carried opaquely by the source and are elided. -/
structure StravaErrorObj where
  kind : StravaErrorKind
  message : String
  statusCode : Option Int
  retryAfter : Option Int
deriving DecidableEq, Repr

/-- The `switch (statusCode)` of `createErrorFromResponse` in
`src/http/request.ts`; `message` is the already-computed message string and
`retryAfter` the parsed `Retry-After` header (attached only on 429). -/
def createErrorFromResponse (statusCode : Int) (message : String)
    (retryAfter : Option Int) : StravaErrorObj :=
  if statusCode = 401 ∨ statusCode = 403 then ⟨.auth, message, some statusCode, none⟩
  else if statusCode = 404 then ⟨.notFound, message, some statusCode, none⟩
  else if statusCode = 422 then ⟨.validation, message, some statusCode, none⟩
  else if statusCode = 429 then ⟨.rateLimit, message, some statusCode, retryAfter⟩
  else if statusCode = 500 ∨ statusCode = 502 ∨ statusCode = 503 ∨ statusCode = 504 then
    ⟨.server, message, some statusCode, none⟩
  else ⟨.generic, message, some statusCode, none⟩

/-- An exception reaching the catch-clause of `makeRequest` in
`src/http/request.ts`: either an already-classified `StravaError` (rethrown
as-is) or a JS `Error` with its `name` and `message` (an aborted fetch has
`name = "AbortError"`). -/
inductive CaughtError
  | stravaErr (e : StravaErrorObj)
  | jsError (name : String) (message : String)
deriving DecidableEq, Repr

/-- The timeout message `Request timeout after ${timeout}ms`. -/
def timeoutMessage (timeout : Nat) : String :=
  "Request timeout after " ++ toString timeout ++ "ms"

/-- The catch-clause of `makeRequest` in `src/http/request.ts`: a
`StravaError` is rethrown unchanged; an `AbortError` becomes a status-code-less
`StravaError` with the timeout message; any other error becomes a
status-code-less `StravaError` with the error's own message. -/
def handleFetchError (caught : CaughtError) (timeout : Nat) : StravaErrorObj :=
  match caught with
  | .stravaErr e => e
  | .jsError name msg =>
    if name = "AbortError" then ⟨.generic, timeoutMessage timeout, none, none⟩
    else ⟨.generic, msg, none, none⟩

/-! ## Theorems: retry layer -/

/-- Helper: one unfolding step of the retry loop, for a positive fuel. -/
theorem withRetryGo_step {ε α : Type} (fn : Nat → Except ε α) (statusOf : ε → Option Int)
    (gra : ε → Option ℚ) (cfg : RetryConfig) (attempt r : Nat) :
    withRetryGo fn statusOf gra cfg attempt (r + 1) = (match fn attempt with
      | .ok v => ⟨.ok v, 1, []⟩
      | .error e =>
        if r = 0 then ⟨.error (some e), 1, []⟩
        else if isRetryable (statusOf e) cfg then
          let d := calculateDelay attempt cfg (gra e)
          let rest := withRetryGo fn statusOf gra cfg (attempt + 1) r
          ⟨rest.result, rest.invocations + 1, d :: rest.delays⟩
        else ⟨.error (some e), 1, []⟩) := rfl

/-- Helper: when every invocation of `fn` fails and every such error is
retryable, a loop of `r + 1` remaining iterations starting at `attempt`
performs all `r + 1` invocations and ends by throwing the last error. -/
theorem withRetryGo_all_fail {ε α : Type} (fn : Nat → Except ε α) (statusOf : ε → Option Int)
    (gra : ε → Option ℚ) (cfg : RetryConfig) (errs : Nat → ε)
    (hfail : ∀ i, fn i = .error (errs i))
    (hret : ∀ i, isRetryable (statusOf (errs i)) cfg = true)
    (r attempt : Nat) :
    (withRetryGo fn statusOf gra cfg attempt (r + 1)).result = .error (some (errs (attempt + r))) ∧
    (withRetryGo fn statusOf gra cfg attempt (r + 1)).invocations = r + 1 := by
  induction r generalizing attempt with
  | zero =>
    rw [withRetryGo_step, hfail attempt]
    simp
  | succ r ih =>
    obtain ⟨hres, hinv⟩ := ih (attempt + 1)
    have harith : attempt + 1 + r = attempt + (r + 1) := by omega
    rw [harith] at hres
    rw [withRetryGo_step, hfail attempt]
    simp [hret attempt, hres, hinv]

/-- Helper: if the attempts at offsets `0, ..., d-1` from `attempt` fail
retryably and the attempt at offset `d` fails non-retryably, with `d ≤ r`
iterations of margin, the loop performs exactly `d + 1` invocations and
throws that non-retryable error. -/
theorem withRetryGo_nonretryable {ε α : Type} (fn : Nat → Except ε α) (statusOf : ε → Option Int)
    (gra : ε → Option ℚ) (cfg : RetryConfig) (d r attempt : Nat) (e : ε)
    (hd : d ≤ r)
    (hpre : ∀ j, j < d → ∃ ej, fn (attempt + j) = .error ej ∧ isRetryable (statusOf ej) cfg = true)
    (hfail : fn (attempt + d) = .error e)
    (hnr : isRetryable (statusOf e) cfg = false) :
    (withRetryGo fn statusOf gra cfg attempt (r + 1)).result = .error (some e) ∧
    (withRetryGo fn statusOf gra cfg attempt (r + 1)).invocations = d + 1 := by
  induction d generalizing attempt r with
  | zero =>
    rw [Nat.add_zero] at hfail
    rcases Nat.eq_zero_or_pos r with h0 | hpos
    · subst h0
      rw [withRetryGo_step, hfail]
      simp
    · obtain ⟨r', rfl⟩ : ∃ r', r = r' + 1 := ⟨r - 1, by omega⟩
      rw [withRetryGo_step, hfail]
      simp [hnr]
  | succ d ih =>
    obtain ⟨r', rfl⟩ : ∃ r', r = r' + 1 := ⟨r - 1, by omega⟩
    obtain ⟨e0, he0, hr0⟩ := hpre 0 (by omega)
    rw [Nat.add_zero] at he0
    have hpre' : ∀ j, j < d → ∃ ej, fn (attempt + 1 + j) = .error ej ∧
        isRetryable (statusOf ej) cfg = true := by
      intro j hj
      have harith : attempt + 1 + j = attempt + (j + 1) := by omega
      rw [harith]
      exact hpre (j + 1) (by omega)
    have hfail' : fn (attempt + 1 + d) = .error e := by
      have harith : attempt + 1 + d = attempt + (d + 1) := by omega
      rw [harith]
      exact hfail
    obtain ⟨hres, hinv⟩ := ih r' (attempt + 1) (by omega) hpre' hfail'
    rw [withRetryGo_step, he0]
    simp [hr0, hres, hinv]

/-- C2 counterexample: on the configuration with `initialDelay = -1000` and
the default `backoffFactor = 2 ≥ 1`, the no-hint delay is strictly
decreasing from attempt 1 to attempt 2, refuting the claimed non-decrease for
every configuration with `backoffFactor ≥ 1`. -/
theorem calculateDelay_monotonicity_counterexample :
    1 ≤ ({ DEFAULT_RETRY_CONFIG with initialDelay := -1000 } : RetryConfig).backoffFactor ∧
    calculateDelay 2 { DEFAULT_RETRY_CONFIG with initialDelay := -1000 } none
      < calculateDelay 1 { DEFAULT_RETRY_CONFIG with initialDelay := -1000 } none := by
  constructor
  · norm_num [DEFAULT_RETRY_CONFIG]
  · norm_num [calculateDelay, DEFAULT_RETRY_CONFIG, min_def]

/-- C2 (amended): for every attempt number `n ≥ 1` and every configuration,
the delay with a retry-after hint is `min(retryAfter * 1000, maxDelay)`,
independent of the attempt number, and the delay with no hint is
`min(initialDelay * backoffFactor^(n-1), maxDelay)`; when `backoffFactor ≥ 1`
and `initialDelay ≥ 0` the no-hint delay is non-decreasing in the attempt
number until capped at `maxDelay`. -/
theorem calculateDelay_spec (cfg : RetryConfig) (n : Nat) (h : ℚ) (hn : 1 ≤ n) :
    calculateDelay n cfg (some h) = min (h * 1000) cfg.maxDelay ∧
    (∀ m : Nat, calculateDelay n cfg (some h) = calculateDelay m cfg (some h)) ∧
    calculateDelay n cfg none = min (cfg.initialDelay * cfg.backoffFactor ^ (n - 1)) cfg.maxDelay ∧
    (1 ≤ cfg.backoffFactor → 0 ≤ cfg.initialDelay →
      calculateDelay n cfg none ≤ calculateDelay (n + 1) cfg none) := by
  refine ⟨rfl, fun m => rfl, rfl, fun hbf hid => ?_⟩
  have hpow : cfg.backoffFactor ^ (n - 1) ≤ cfg.backoffFactor ^ (n + 1 - 1) :=
    pow_le_pow_right₀ hbf (by omega)
  exact min_le_min (mul_le_mul_of_nonneg_left hpow hid) le_rfl

/-- Witness for `calculateDelay_spec` at the default configuration, n = 1,
hint 3 seconds. -/
theorem calculateDelay_spec_witness :
    (1 ≤ (1 : Nat)) ∧ 1 ≤ DEFAULT_RETRY_CONFIG.backoffFactor ∧
    0 ≤ DEFAULT_RETRY_CONFIG.initialDelay ∧
    calculateDelay 1 DEFAULT_RETRY_CONFIG (some 3) = min (3 * 1000) DEFAULT_RETRY_CONFIG.maxDelay ∧
    calculateDelay 1 DEFAULT_RETRY_CONFIG (some 3) = calculateDelay 4 DEFAULT_RETRY_CONFIG (some 3) ∧
    calculateDelay 1 DEFAULT_RETRY_CONFIG none
      = min (DEFAULT_RETRY_CONFIG.initialDelay * DEFAULT_RETRY_CONFIG.backoffFactor ^ (1 - 1))
          DEFAULT_RETRY_CONFIG.maxDelay ∧
    calculateDelay 1 DEFAULT_RETRY_CONFIG none ≤ calculateDelay 2 DEFAULT_RETRY_CONFIG none := by
  have h := calculateDelay_spec DEFAULT_RETRY_CONFIG 1 3 (by norm_num)
  exact ⟨by norm_num, by norm_num [DEFAULT_RETRY_CONFIG], by norm_num [DEFAULT_RETRY_CONFIG],
    h.1, h.2.1 4, h.2.2.1,
    h.2.2.2 (by norm_num [DEFAULT_RETRY_CONFIG]) (by norm_num [DEFAULT_RETRY_CONFIG])⟩

/-- C3: if the attempt at position `d + 1` (counting from 1) fails with a
status code outside the configured retryable set, after earlier attempts that
failed retryably, `withRetry` rethrows that error at once: the attempt
function is invoked exactly `d + 1` times in total, zero more. -/
theorem withRetry_nonretryable_short_circuit {ε α : Type} (fn : Nat → Except ε α)
    (statusOf : ε → Option Int) (gra : ε → Option ℚ) (cfg : RetryConfig)
    (d : Nat) (e : ε) (c : Int)
    (hmax : (d : Int) + 1 ≤ cfg.maxAttempts)
    (hpre : ∀ j, j < d → ∃ ej, fn (1 + j) = .error ej ∧ isRetryable (statusOf ej) cfg = true)
    (hfail : fn (1 + d) = .error e)
    (hstatus : statusOf e = some c)
    (hc : c ∉ cfg.retryableStatusCodes) :
    (withRetry fn statusOf gra cfg).result = .error (some e) ∧
    (withRetry fn statusOf gra cfg).invocations = d + 1 := by
  have hnr : isRetryable (statusOf e) cfg = false := by
    rw [hstatus]
    simpa [isRetryable] using hc
  have hm : cfg.maxAttempts.toNat = (cfg.maxAttempts.toNat - 1) + 1 := by omega
  have h := withRetryGo_nonretryable fn statusOf gra cfg d (cfg.maxAttempts.toNat - 1) 1 e
    (by omega) hpre hfail hnr
  rw [withRetry, hm]
  exact h

/-- Witness for `withRetry_nonretryable_short_circuit`: a first-attempt 404
under the default configuration stops after exactly one invocation. -/
theorem withRetry_nonretryable_short_circuit_witness :
    (withRetry (fun i => (Except.error i : Except Nat Nat)) (fun _ => some 404) (fun _ => none)
        DEFAULT_RETRY_CONFIG).result = .error (some 1) ∧
    (withRetry (fun i => (Except.error i : Except Nat Nat)) (fun _ => some 404) (fun _ => none)
        DEFAULT_RETRY_CONFIG).invocations = 1 := by
  have h := withRetry_nonretryable_short_circuit
    (fun i => (Except.error i : Except Nat Nat)) (fun _ => some 404) (fun _ => none)
    DEFAULT_RETRY_CONFIG 0 1 404 (by norm_num [DEFAULT_RETRY_CONFIG])
    (fun j hj => absurd hj (by omega)) rfl rfl (by decide)
  simpa using h

/-- C4: if every invocation fails with a retryable error, `withRetry`
invokes the attempt function exactly `maxAttempts` times and then rethrows
the error of the final attempt — never a default value. -/
theorem withRetry_exhaustion {ε α : Type} (fn : Nat → Except ε α) (statusOf : ε → Option Int)
    (gra : ε → Option ℚ) (cfg : RetryConfig) (errs : Nat → ε)
    (hfail : ∀ i, fn i = .error (errs i))
    (hret : ∀ i, isRetryable (statusOf (errs i)) cfg = true)
    (hmax : 1 ≤ cfg.maxAttempts) :
    (withRetry fn statusOf gra cfg).invocations = cfg.maxAttempts.toNat ∧
    (withRetry fn statusOf gra cfg).result = .error (some (errs cfg.maxAttempts.toNat)) := by
  have hm : cfg.maxAttempts.toNat = (cfg.maxAttempts.toNat - 1) + 1 := by omega
  obtain ⟨hres, hinv⟩ := withRetryGo_all_fail fn statusOf gra cfg errs hfail hret
    (cfg.maxAttempts.toNat - 1) 1
  have harith : 1 + (cfg.maxAttempts.toNat - 1) = cfg.maxAttempts.toNat := by omega
  rw [harith] at hres
  constructor
  · rw [withRetry, hm, hinv]
  · rw [withRetry, hm, hres, ← hm]

/-- Witness for `withRetry_exhaustion`: three 500-failures under the default
configuration give three invocations and rethrow the third error. -/
theorem withRetry_exhaustion_witness :
    (withRetry (fun i => (Except.error i : Except Nat Nat)) (fun _ => some 500) (fun _ => none)
        DEFAULT_RETRY_CONFIG).invocations = 3 ∧
    (withRetry (fun i => (Except.error i : Except Nat Nat)) (fun _ => some 500) (fun _ => none)
        DEFAULT_RETRY_CONFIG).result = .error (some 3) := by
  have h := withRetry_exhaustion (fun i => (Except.error i : Except Nat Nat)) (fun _ => some 500)
    (fun _ => none) DEFAULT_RETRY_CONFIG (fun i => i) (fun _ => rfl) (fun _ => rfl)
    (by norm_num [DEFAULT_RETRY_CONFIG])
  simpa [DEFAULT_RETRY_CONFIG] using h

/-- C10: with `maxAttempts ≤ 0` the attempt loop never runs: the attempt
function is never invoked, no delay is slept, and `withRetry` rejects with
the unassigned `lastError`, i.e. `undefined` (modelled `none`). -/
theorem withRetry_nonpositive_max_attempts {ε α : Type} (fn : Nat → Except ε α)
    (statusOf : ε → Option Int) (gra : ε → Option ℚ) (cfg : RetryConfig)
    (h : cfg.maxAttempts ≤ 0) :
    withRetry fn statusOf gra cfg = ⟨.error none, 0, []⟩ := by
  have h0 : cfg.maxAttempts.toNat = 0 := by omega
  rw [withRetry, h0]
  rfl

/-- Witness for `withRetry_nonpositive_max_attempts` at `maxAttempts = 0`. -/
theorem withRetry_nonpositive_max_attempts_witness :
    withRetry (fun _ => (Except.ok 7 : Except Nat Nat)) (fun _ => none) (fun _ => none)
      { DEFAULT_RETRY_CONFIG with maxAttempts := 0 } = ⟨.error none, 0, []⟩ :=
  withRetry_nonpositive_max_attempts _ _ _ _ (by norm_num [DEFAULT_RETRY_CONFIG])

/-! ## Theorems: request deduplication -/

/-- Helper: unfolding of `runCalls` on a non-empty call list. -/
theorem runCalls_cons (w : Int) (m p : String) (q : Option (List (String × String)))
    (b : Option String) (cache : Cache) (t : Int) (f : Nat) (rest : List (Int × Nat)) :
    runCalls w m p q b cache ((t, f) :: rest) =
      (let step := getOrCreate cache w m p q b t f
       let next := runCalls w m p q b step.2.1 rest
       (next.1, step.1 :: next.2.1, next.2.2 + (if step.2.2 then 1 else 0))) := rfl

/-- Helper: a call inside the window against a singleton cache for the same
key is a pure cache hit: same promise, unchanged cache, no factory call. -/
theorem getOrCreate_hit (w : Int) (m p : String) (q : Option (List (String × String)))
    (b : Option String) (t0 t : Int) (f0 fr : Nat) (h : t < t0 + w) :
    getOrCreate [(generateKey m p q b, f0, t0)] w m p q b t fr
      = (f0, [(generateKey m p q b, f0, t0)], false) := by
  have hlt : t - t0 < w := by omega
  simp [getOrCreate, cacheGet, hlt]

/-- Helper: a run of calls against the first caller's live entry returns that
caller's promise every time and never invokes the factory. -/
theorem runCalls_hits (w : Int) (m p : String) (q : Option (List (String × String)))
    (b : Option String) (t0 : Int) (f0 : Nat) (calls : List (Int × Nat))
    (h : ∀ c ∈ calls, c.1 < t0 + w) :
    runCalls w m p q b [(generateKey m p q b, f0, t0)] calls
      = ([(generateKey m p q b, f0, t0)], calls.map (fun _ => f0), 0) := by
  induction calls with
  | nil => rfl
  | cons c rest ih =>
    obtain ⟨t, f⟩ := c
    have h1 : t < t0 + w := h (t, f) (by simp)
    have h2 := ih (fun c hc => h c (by simp [hc]))
    rw [runCalls_cons, getOrCreate_hit w m p q b t0 t f0 f h1]
    simp [h2]

/-- C1: starting from an empty cache, a sequence of `getOrCreate` calls with
identical (method, path, query, body), each issued while the first call's
entry is younger than the window (`t < t0 + w`), invokes the factory exactly
once — by the first call — and every caller receives the first call's
promise, hence the identical eventual value or failure. -/
theorem dedup_single_flight (w : Int) (m p : String) (q : Option (List (String × String)))
    (b : Option String) (t0 : Int) (f0 : Nat) (rest : List (Int × Nat))
    (h : ∀ c ∈ rest, c.1 < t0 + w) :
    (runCalls w m p q b [] ((t0, f0) :: rest)).2.1 = f0 :: rest.map (fun _ => f0) ∧
    (runCalls w m p q b [] ((t0, f0) :: rest)).2.2 = 1 := by
  have hfirst : getOrCreate [] w m p q b t0 f0
      = (f0, [(generateKey m p q b, f0, t0)], true) := rfl
  rw [runCalls_cons, hfirst]
  simp [runCalls_hits w m p q b t0 f0 rest h]

/-- Witness for `dedup_single_flight`: three identical calls at 0, 10, 4999 ms
with a 5000 ms window share one promise and one factory invocation. -/
theorem dedup_single_flight_witness :
    (runCalls 5000 "GET" "/athlete" none none [] [((0 : Int), 7), (10, 8), (4999, 9)]).2.1
      = [7, 7, 7] ∧
    (runCalls 5000 "GET" "/athlete" none none [] [((0 : Int), 7), (10, 8), (4999, 9)]).2.2 = 1 := by
  have h := dedup_single_flight 5000 "GET" "/athlete" none none 0 7 [(10, 8), (4999, 9)]
    (by decide)
  simpa using h

/-- C9: an entry whose age has reached the window is never served — any such
access invokes the factory and returns the fresh promise — and concretely a
call at `t0` followed by a structurally identical call at `t1 ≥ t0 + w`
invokes the factory both times, the second replacing the entry with its own
promise and timestamp. -/
theorem dedup_expiry (w : Int) (m p : String) (q : Option (List (String × String)))
    (b : Option String) (t0 t1 : Int) (f0 f1 : Nat) (h : t0 + w ≤ t1) :
    (∀ (cache : Cache) (pr : Nat) (ts now : Int) (fr : Nat),
        cacheGet cache (generateKey m p q b) = some (pr, ts) → w ≤ now - ts →
          (getOrCreate cache w m p q b now fr).2.2 = true ∧
          (getOrCreate cache w m p q b now fr).1 = fr) ∧
    getOrCreate [] w m p q b t0 f0 = (f0, [(generateKey m p q b, f0, t0)], true) ∧
    getOrCreate [(generateKey m p q b, f0, t0)] w m p q b t1 f1
      = (f1, [(generateKey m p q b, f1, t1)], true) := by
  refine ⟨?_, rfl, ?_⟩
  · intro cache pr ts now fr hget hage
    have hnlt : ¬ (now - ts < w) := by omega
    simp [getOrCreate, hget, hnlt]
  · have hnlt : ¬ (t1 - t0 < w) := by omega
    simp [getOrCreate, cacheGet, cacheSet, hnlt]

/-- Witness for `dedup_expiry`: identical calls at 0 and 5000 ms with a
5000 ms window each invoke the factory; the second replaces the entry. -/
theorem dedup_expiry_witness :
    ((0 : Int) + 5000 ≤ 5000) ∧
    getOrCreate [] 5000 "GET" "/athlete" none none 0 7
      = (7, [(generateKey "GET" "/athlete" none none, 7, 0)], true) ∧
    getOrCreate [(generateKey "GET" "/athlete" none none, 7, 0)] 5000 "GET" "/athlete"
        none none 5000 8
      = (8, [(generateKey "GET" "/athlete" none none, 8, 5000)], true) := by
  have h := dedup_expiry 5000 "GET" "/athlete" none none 0 5000 7 8 (by norm_num)
  exact ⟨by norm_num, h.2.1, h.2.2⟩

/-! ## Theorems: OAuth token lifecycle -/

/-- C5 counterexample: a stored expired token with `athleteId = 0`, refreshed
by a response that omits `athleteId`, is persisted and returned with
`athleteId` absent — `token.athleteId || newToken.athleteId` drops the falsy
`0` — so the claimed carry-forward of the old ownerId fails there. -/
theorem getToken_athleteId_zero_counterexample :
    ((⟨"a", "r", 100, "Bearer", none, some 0⟩ : TokenData).expiresAt ≤ 0 + 300) ∧
    (⟨"a", "r", 100, "Bearer", none, some 0⟩ : TokenData).athleteId = some 0 ∧
    (⟨"a2", "r2", 9999, "Bearer", none⟩ : RefreshedTokenData).athleteId = none ∧
    OAuthManager.getToken (some ⟨"a", "r", 100, "Bearer", none, some 0⟩) 0
        (.ok ⟨"a2", "r2", 9999, "Bearer", none⟩)
      = ⟨.ok (some ⟨"a2", "r2", 9999, "Bearer", none, none⟩),
         some ⟨"a2", "r2", 9999, "Bearer", none, none⟩, 1⟩ ∧
    (⟨"a2", "r2", 9999, "Bearer", none, none⟩ : TokenData).athleteId
      ≠ (⟨"a", "r", 100, "Bearer", none, some 0⟩ : TokenData).athleteId := by
  refine ⟨by norm_num, rfl, rfl, ?_, by simp⟩
  simp [OAuthManager.getToken, isTokenExpired, refreshedRecord, jsOrAthleteId]

/-- C5 (amended): when the stored token is within 300 s of expiry, `getToken`
performs exactly one refresh, persists the merged record and returns it; the
merged record keeps the old `scope` (the refresh response carries none) and
keeps the old `athleteId` when the response omits it, provided the old value
is not the falsy `0` (which the `||` merge drops). When the token is not
within 300 s of expiry it is returned unchanged, with no refresh and the
store untouched, whatever a refresh would have yielded. -/
theorem getToken_refresh_on_expiry (token : TokenData) (now : Int) (nt : RefreshedTokenData)
    (ro : Except StravaAuthErrorData RefreshedTokenData) :
    (token.expiresAt ≤ now + 300 →
      OAuthManager.getToken (some token) now (.ok nt)
        = ⟨.ok (some (refreshedRecord token nt)), some (refreshedRecord token nt), 1⟩ ∧
      (refreshedRecord token nt).scope = token.scope ∧
      (nt.athleteId = none → token.athleteId ≠ some 0 →
        (refreshedRecord token nt).athleteId = token.athleteId)) ∧
    (now + 300 < token.expiresAt →
      OAuthManager.getToken (some token) now ro = ⟨.ok (some token), some token, 0⟩) := by
  constructor
  · intro hexp
    have he : isTokenExpired token now 300 = true := by
      simp only [isTokenExpired, decide_eq_true_eq]
      omega
    refine ⟨by simp [OAuthManager.getToken, he], rfl, ?_⟩
    intro hnone hzero
    simp only [refreshedRecord]
    rw [hnone]
    cases hta : token.athleteId with
    | none => simp [jsOrAthleteId]
    | some x =>
      rw [hta] at hzero
      have hx : ¬ x = 0 := fun hx0 => hzero (by rw [hx0])
      simp [jsOrAthleteId, hx]
  · intro hfresh
    have he : isTokenExpired token now 300 = false := by
      simp only [isTokenExpired, decide_eq_false_iff_not]
      omega
    simp [OAuthManager.getToken, he]

/-- Witness for `getToken_refresh_on_expiry`: a token expiring at 100 read at
time 0 is refreshed once; the refresh response omits `athleteId`, so the old
scope and athlete id survive. -/
theorem getToken_refresh_on_expiry_witness :
    ((⟨"a", "r", 100, "Bearer", some "read", some 5⟩ : TokenData).expiresAt ≤ 0 + 300) ∧
    OAuthManager.getToken (some ⟨"a", "r", 100, "Bearer", some "read", some 5⟩) 0
        (.ok ⟨"a2", "r2", 9999, "Bearer", none⟩)
      = ⟨.ok (some (refreshedRecord ⟨"a", "r", 100, "Bearer", some "read", some 5⟩
            ⟨"a2", "r2", 9999, "Bearer", none⟩)),
         some (refreshedRecord ⟨"a", "r", 100, "Bearer", some "read", some 5⟩
            ⟨"a2", "r2", 9999, "Bearer", none⟩), 1⟩ ∧
    (refreshedRecord ⟨"a", "r", 100, "Bearer", some "read", some 5⟩
        ⟨"a2", "r2", 9999, "Bearer", none⟩).scope = some "read" ∧
    (refreshedRecord ⟨"a", "r", 100, "Bearer", some "read", some 5⟩
        ⟨"a2", "r2", 9999, "Bearer", none⟩).athleteId = some 5 := by
  have h := (getToken_refresh_on_expiry ⟨"a", "r", 100, "Bearer", some "read", some 5⟩ 0
    ⟨"a2", "r2", 9999, "Bearer", none⟩ (.ok ⟨"a2", "r2", 9999, "Bearer", none⟩)).1
    (by norm_num)
  exact ⟨by norm_num, h.1, h.2.1, h.2.2 rfl (by simp)⟩

/-- C6: when the stored token is within 300 s of expiry and the refresh
exchange fails, `getToken` clears the TokenStore and propagates that same
error; the failure is never converted into a returned value. -/
theorem getToken_refresh_failure_clears_store (token : TokenData) (now : Int)
    (e : StravaAuthErrorData) (hexp : token.expiresAt ≤ now + 300) :
    OAuthManager.getToken (some token) now (.error e) = ⟨.error e, none, 1⟩ := by
  have he : isTokenExpired token now 300 = true := by
    simp only [isTokenExpired, decide_eq_true_eq]
    omega
  simp [OAuthManager.getToken, he]

/-- Witness for `getToken_refresh_failure_clears_store` at an expired token
and a failing refresh. -/
theorem getToken_refresh_failure_clears_store_witness :
    ((⟨"a", "r", 100, "Bearer", none, none⟩ : TokenData).expiresAt ≤ 0 + 300) ∧
    OAuthManager.getToken (some ⟨"a", "r", 100, "Bearer", none, none⟩) 0
        (.error ⟨"boom", some 400⟩)
      = ⟨.error ⟨"boom", some 400⟩, none, 1⟩ :=
  ⟨by norm_num,
   getToken_refresh_failure_clears_store ⟨"a", "r", 100, "Bearer", none, none⟩ 0
     ⟨"boom", some 400⟩ (by norm_num)⟩

/-! ## Theorems: error classification -/

/-- C7 counterexample: 501 is a 5xx status, yet `createErrorFromResponse`
maps it to the base `StravaError`, not `StravaServerError`, and 501 is not in
the default retryable set. -/
theorem server_error_5xx_counterexample :
    (500 ≤ (501 : Int) ∧ (501 : Int) < 600) ∧
    (createErrorFromResponse 501 "HTTP 501" none).kind ≠ StravaErrorKind.server ∧
    isRetryable (some 501) DEFAULT_RETRY_CONFIG = false := by
  refine ⟨by norm_num, ?_, rfl⟩
  intro hk
  simp [createErrorFromResponse] at hk

/-- C7 (amended): for a response status among 500, 502, 503, 504 the created
error is `StravaServerError`, carries that status code, and is retryable
under the default retryable set. -/
theorem createErrorFromResponse_server_codes (s : Int) (msg : String) (ra : Option Int)
    (h : s = 500 ∨ s = 502 ∨ s = 503 ∨ s = 504) :
    (createErrorFromResponse s msg ra).kind = StravaErrorKind.server ∧
    (createErrorFromResponse s msg ra).statusCode = some s ∧
    isRetryable (some s) DEFAULT_RETRY_CONFIG = true := by
  rcases h with h | h | h | h <;> subst h <;>
    exact ⟨by norm_num [createErrorFromResponse], by norm_num [createErrorFromResponse], rfl⟩

/-- Witness for `createErrorFromResponse_server_codes` at status 503. -/
theorem createErrorFromResponse_server_codes_witness :
    ((503 : Int) = 500 ∨ (503 : Int) = 502 ∨ (503 : Int) = 503 ∨ (503 : Int) = 504) ∧
    (createErrorFromResponse 503 "service unavailable" none).kind = StravaErrorKind.server ∧
    (createErrorFromResponse 503 "service unavailable" none).statusCode = some 503 ∧
    isRetryable (some 503) DEFAULT_RETRY_CONFIG = true := by
  have h := createErrorFromResponse_server_codes 503 "service unavailable" none (by norm_num)
  exact ⟨by norm_num, h.1, h.2.1, h.2.2⟩

/-- C8: an aborted fetch is mapped by the catch-clause to the dedicated
timeout failure: it carries the timeout message, no status code, is
retryable under the default configuration, and differs from the error the
generic branch produces for any non-abort exception whose message is not
itself the timeout text. -/
theorem timeout_failure_distinguished (t : Nat) (msg name msg2 : String)
    (hname : name ≠ "AbortError") (hmsg : msg2 ≠ timeoutMessage t) :
    (handleFetchError (.jsError "AbortError" msg) t).statusCode = none ∧
    (handleFetchError (.jsError "AbortError" msg) t).message = timeoutMessage t ∧
    isRetryable (handleFetchError (.jsError "AbortError" msg) t).statusCode
      DEFAULT_RETRY_CONFIG = true ∧
    handleFetchError (.jsError name msg2) t ≠ handleFetchError (.jsError "AbortError" msg) t := by
  refine ⟨rfl, rfl, rfl, ?_⟩
  intro heq
  have hm : (handleFetchError (.jsError name msg2) t).message = timeoutMessage t := by
    rw [heq]
    rfl
  simp [handleFetchError, hname] at hm
  exact hmsg hm

/-- Witness for `timeout_failure_distinguished` at a 30000 ms timeout. -/
theorem timeout_failure_distinguished_witness :
    (("TypeError" : String) ≠ "AbortError") ∧
    (handleFetchError (.jsError "AbortError" "signal aborted") 30000).statusCode = none ∧
    (handleFetchError (.jsError "AbortError" "signal aborted") 30000).message
      = timeoutMessage 30000 ∧
    isRetryable (handleFetchError (.jsError "AbortError" "signal aborted") 30000).statusCode
      DEFAULT_RETRY_CONFIG = true ∧
    handleFetchError (.jsError "TypeError" "network down") 30000
      ≠ handleFetchError (.jsError "AbortError" "signal aborted") 30000 := by
  have h := timeout_failure_distinguished 30000 "signal aborted" "TypeError" "network down"
    (by decide) (by decide)
  exact ⟨by decide, h.1, h.2.1, h.2.2.1, h.2.2.2⟩

end Strava
